import Mathlib

/-!
Verification development for the resource-lifecycle orchestrator
`BedrockKnowledgeBase` in `src/utils/knowledge_base.py`.

The Python class is shallowly embedded: module-level constant tables become
Lean lists, pure helpers become Lean functions, and the stateful provisioning
and teardown pipelines become explicit state-passing functions over an
abstract provider `World` that also emit a trace of provider calls
(`ApiCall`).  Exceptions are modelled with `Except PyErr`.
-/

namespace Raabta

/-- Python exception outcomes that the source raises or catches. -/
inductive PyErr where
  | valueError (msg : String)
  | clientError (code : String)
  | conflict
  | notFound
  | alreadyExists
  | requestError
  | unboundLocal
  | indexError
  deriving Repr, DecidableEq

/-- Allow-list `valid_generation_models` (knowledge_base.py lines 23-37). -/
def validGenerationModels : List String :=
  [ "us.anthropic.claude-sonnet-4-20250514-v1:0",
    "us.anthropic.claude-sonnet-4-5-20250929-v1:0",
    "us.anthropic.claude-haiku-4-5-20251001-v1:0",
    "global.anthropic.claude-sonnet-4-20250514-v1:0",
    "global.anthropic.claude-sonnet-4-5-20250929-v1:0",
    "global.anthropic.claude-haiku-4-5-20251001-v1:0",
    "amazon.nova-micro-v1:0",
    "amazon.nova-lite-v1:0",
    "amazon.nova-pro-v1:0",
    "amazon.nova-premier-v1:0" ]

/-- Allow-list `valid_reranking_models` (lines 39-42). -/
def validRerankingModels : List String :=
  [ "cohere.rerank-v3-5:0", "amazon.rerank-v1:0" ]

/-- Allow-list `valid_embedding_models` (lines 44-58). -/
def validEmbeddingModels : List String :=
  [ "cohere.embed-v4:0",
    "cohere.embed-multilingual-v3",
    "cohere.embed-english-v3",
    "us.cohere.embed-v4:0",
    "global.cohere.embed-v4:0",
    "amazon.titan-embed-text-v1",
    "amazon.titan-embed-text-v2:0",
    "amazon.titan-embed-g1-text-02",
    "amazon.titan-embed-image-v1",
    "amazon.nova-2-multimodal-embeddings-v1:0" ]

/-- Fixed table `embedding_context_dimensions` (lines 60-74). -/
def embeddingContextDimensions : List (String × Nat) :=
  [ ("cohere.embed-v4:0", 1024),
    ("cohere.embed-multilingual-v3", 1024),
    ("cohere.embed-english-v3", 1024),
    ("us.cohere.embed-v4:0", 1024),
    ("global.cohere.embed-v4:0", 1024),
    ("amazon.titan-embed-text-v1", 1536),
    ("amazon.titan-embed-text-v2:0", 1024),
    ("amazon.titan-embed-g1-text-02", 1024),
    ("amazon.titan-embed-image-v1", 1024),
    ("amazon.nova-2-multimodal-embeddings-v1:0", 3072) ]

/-- The multimodal-compatible subset checked in `_validate_models`
(lines 230-236). -/
def multimodalCompatibleModels : List String :=
  [ "cohere.embed-v4:0",
    "us.cohere.embed-v4:0",
    "global.cohere.embed-v4:0",
    "amazon.titan-embed-image-v1" ]

/-- The Cohere Embed v4 identifiers special-cased in
`_get_embedding_dimensions` (lines 254-258). -/
def cohereV4Models : List String :=
  [ "cohere.embed-v4:0", "us.cohere.embed-v4:0", "global.cohere.embed-v4:0" ]

/-- One data-source descriptor from the `data_sources` list handed to
`BedrockKnowledgeBase.__init__`; only the fields the source reads are kept. -/
structure DataSource where
  type : String
  bucketName : String := ""
  credentialsSecretArn : String := ""
  deriving Repr, DecidableEq

/-- The caller-supplied construction parameters of `BedrockKnowledgeBase`
(`__init__`, lines 96-181), after defaulting. -/
structure Config where
  kbName : String
  kbDescription : String
  dataSources : List DataSource
  multiModal : Bool
  parserChoice : String
  embeddingModel : String
  generationModel : String
  rerankingModel : String
  graphModel : String
  chunkingStrategy : String
  suffix : String
  vectorStore : String
  deriving Repr, DecidableEq

/-- `self.bucket_names` (lines 151-153): the S3-typed data sources. -/
def Config.bucketNames (c : Config) : List String :=
  (c.dataSources.filter (fun d => d.type == "S3")).map (fun d => d.bucketName)

/-- `self.secrets_arns` (lines 154-160). -/
def Config.secretsArns (c : Config) : List String :=
  (c.dataSources.filter (fun d =>
      d.type == "CONFLUENCE" || d.type == "SHAREPOINT" || d.type == "SALESFORCE")).map
    (fun d => d.credentialsSecretArn)

/-- `self.intermediate_bucket_name` (lines 165-174): only set when
multimodal or the CUSTOM chunking strategy is selected. -/
def Config.intermediateBucketName (c : Config) : Option String :=
  if c.multiModal || c.chunkingStrategy == "CUSTOM" then
    some (c.kbName ++ "-intermediate-" ++ c.suffix)
  else none

/-- `self.lambda_function_name` (lines 165-174). -/
def Config.lambdaFunctionName (c : Config) : Option String :=
  if c.multiModal || c.chunkingStrategy == "CUSTOM" then
    some (c.kbName ++ "-lambda-" ++ c.suffix)
  else none

/-- Deterministic resource names derived from the suffix
(lines 183-211). -/
def Config.kbExecutionRoleName (c : Config) : String :=
  "AmazonBedrockExecutionRoleForKnowledgeBase_" ++ c.suffix

def Config.fmPolicyName (c : Config) : String :=
  "AmazonBedrockFoundationModelPolicyForKnowledgeBase_" ++ c.suffix

def Config.s3PolicyName (c : Config) : String :=
  "AmazonBedrockS3PolicyForKnowledgeBase_" ++ c.suffix

def Config.smPolicyName (c : Config) : String :=
  "AmazonBedrockSecretPolicyForKnowledgeBase_" ++ c.suffix

def Config.cwLogPolicyName (c : Config) : String :=
  "AmazonBedrockCloudWatchPolicyForKnowledgeBase_" ++ c.suffix

def Config.ossPolicyName (c : Config) : String :=
  "AmazonBedrockOSSPolicyForKnowledgeBase_" ++ c.suffix

def Config.lambdaPolicyName (c : Config) : String :=
  "AmazonBedrockLambdaPolicyForKnowledgeBase_" ++ c.suffix

def Config.bdaPolicyName (c : Config) : String :=
  "AmazonBedrockBDAPolicyForKnowledgeBase_" ++ c.suffix

def Config.neptunePolicyName (c : Config) : String :=
  "AmazonBedrockNeptunePolicyForKnowledgeBase_" ++ c.suffix

def Config.encryptionPolicyName (c : Config) : String :=
  "bedrock-sample-rag-sp-" ++ c.suffix

def Config.networkPolicyName (c : Config) : String :=
  "bedrock-sample-rag-np-" ++ c.suffix

def Config.accessPolicyName (c : Config) : String :=
  "bedrock-sample-rag-ap-" ++ c.suffix

def Config.vectorStoreName (c : Config) : String :=
  "bedrock-sample-rag-" ++ c.suffix

def Config.indexName (c : Config) : String :=
  "bedrock-sample-rag-index-" ++ c.suffix

def Config.logGroupName (c : Config) : String :=
  "/aws/bedrock/knowledgebase/" ++ c.kbName

/-- `_validate_models` (lines 215-241): membership checks against the three
allow-lists, then the multimodal-compatibility check, in source order. -/
def validateModels (c : Config) : Except PyErr Unit :=
  if c.embeddingModel ∈ validEmbeddingModels then
    if c.generationModel ∈ validGenerationModels then
      if c.rerankingModel ∈ validRerankingModels then
        if c.multiModal then
          if c.embeddingModel ∈ multimodalCompatibleModels then .ok ()
          else .error (.valueError
            "Multimodal mode requires a multimodal-compatible embedding model.")
        else .ok ()
      else .error (.valueError "Invalid Reranking model.")
    else .error (.valueError "Invalid Generation model.")
  else .error (.valueError "Invalid embedding model.")

/-- `_get_embedding_dimensions` (lines 243-262): table lookup, `ValueError`
when absent, and the multimodal override returning 1024 for the Cohere
Embed v4 identifiers. -/
def getEmbeddingDimensions (c : Config) : Except PyErr Nat :=
  match embeddingContextDimensions.lookup c.embeddingModel with
  | none => .error (.valueError
      ("Dimensions not defined for embedding model: " ++ c.embeddingModel))
  | some base =>
    if c.multiModal && cohereV4Models.contains c.embeddingModel then .ok 1024
    else .ok base

/-- Remote provider calls, in the order the source issues them; used as trace
events by the stateful model. -/
inductive ApiCall where
  | stsGetCallerIdentity
  | headBucket (bucket : String)
  | createBucket (bucket : String)
  | createLogGroup (g : String)
  | putRetentionPolicy (g : String)
  | createRole (r : String)
  | getRole (r : String)
  | updateAssumeRolePolicy (r : String)
  | createPolicy (p : String)
  | listPolicyVersions (arn : String)
  | createPolicyVersion (arn : String)
  | attachRolePolicy (r : String) (arn : String)
  | createSecurityPolicy (ptype : String) (n : String)
  | getSecurityPolicy (ptype : String) (n : String)
  | createAccessPolicy (n : String)
  | getAccessPolicy (n : String)
  | createCollection (n : String)
  | batchGetCollection (n : String)
  | createIndex (n : String)
  | createGraph (n : String)
  | getGraph (n : String)
  | createFunction (f : String)
  | createDeliverySource (n : String)
  | describeDeliverySources (n : String)
  | createDeliveryDestination (n : String)
  | describeDeliveryDestinations (n : String)
  | createDelivery (src : String)
  | createKnowledgeBase (n : String)
  | listKnowledgeBases
  | getKnowledgeBase (id : Nat)
  | createDataSource (kbId : Nat) (n : String)
  | listDataSources (kbId : Nat)
  | getDataSource (kbId : Nat) (dsId : Nat)
  | startIngestionJob (idx : Nat)
  | getIngestionJob (idx : Nat)
  | deleteDataSource (dsId : Nat) (kbId : Nat)
  | deleteKnowledgeBase (kbId : Nat)
  | deleteObjects (bucket : String)
  | deleteBucket (bucket : String)
  | deleteLogGroup (g : String)
  | listAttachedRolePolicies (r : String)
  | detachRolePolicy (r : String) (arn : String)
  | deletePolicy (arn : String)
  | deleteRole (r : String)
  | deleteFunction (f : String)
  | deleteCollection (id : Nat)
  | deleteAccessPolicy (n : String)
  | deleteSecurityPolicy (ptype : String) (n : String)
  | updateGraph (id : Nat)
  | deleteGraph (id : Nat)
  deriving Repr, DecidableEq

/-- Abstract provider state: which resources currently exist.  Ids handed out
by the provider (collection, graph, knowledge base, data source) are drawn
from `nextId`. -/
structure World where
  buckets : List String
  foreignBuckets : List String
  logGroups : List String
  roles : List String
  policies : List String
  attachments : List (String × String × String)
  encryptionPolicies : List String
  networkPolicies : List String
  accessPolicies : List String
  collections : List (String × Nat)
  ossIndexes : List String
  graphs : List (String × Nat)
  functions : List String
  deliverySources : List String
  deliveryDestinations : List String
  deliveries : List String
  kbs : List (String × Nat)
  dataSources : List (Nat × String × Nat)
  nextId : Nat
  deriving Repr, DecidableEq

def emptyWorld : World :=
  { buckets := [], foreignBuckets := [], logGroups := [], roles := []
    policies := [], attachments := [], encryptionPolicies := []
    networkPolicies := [], accessPolicies := [], collections := []
    ossIndexes := [], graphs := [], functions := [], deliverySources := []
    deliveryDestinations := [], deliveries := [], kbs := [], dataSources := []
    nextId := 0 }

/-- Region and account number, fetched by the source from the session and
STS (lines 130-137). -/
structure CallerEnv where
  region : String
  accountNumber : String
  deriving Repr, DecidableEq

/-- ARN the source builds for a customer-managed policy
(for example line 1024). -/
def policyArnFor (acct name : String) : String :=
  "arn:aws:iam::" ++ acct ++ ":policy/" ++ name

/-- The per-bucket `create_bucket` error handling of `create_s3_bucket`
(lines 443-484).  `resp` is the provider outcome: `none` means the creation
succeeded, `some code` means a `ClientError` with that code was raised.
Returns `true` when the bucket was newly created.  A
`BucketAlreadyExists` collision (owned by another account) becomes a
`ValueError` naming the bucket; `BucketAlreadyOwnedByYou` is handled
gracefully; every other code is re-raised as the original client error. -/
def createBucketAttempt (name : String) (resp : Option String) :
    Except PyErr Bool :=
  match resp with
  | none => .ok true
  | some code =>
    if code = "BucketAlreadyExists" then
      .error (.valueError
        ("Bucket name " ++ name ++
          " is already taken globally. Please use a different name."))
    else if code = "BucketAlreadyOwnedByYou" then .ok false
    else if code = "AccessDenied" then .error (.clientError "AccessDenied")
    else .error (.clientError code)

/-- The creation loop of `create_s3_bucket` (lines 443-484), with the
provider outcome derived from the world: a bucket in `foreignBuckets`
answers `BucketAlreadyExists`, otherwise creation succeeds. -/
def createBucketsLoop (w : World) : List String →
    Except PyErr Unit × World × List ApiCall
  | [] => (.ok (), w, [])
  | b :: rest =>
    let resp : Option String :=
      if w.foreignBuckets.contains b then some "BucketAlreadyExists" else none
    match createBucketAttempt b resp with
    | .error e => (.error e, w, [.createBucket b])
    | .ok created =>
      let w1 := if created then { w with buckets := b :: w.buckets } else w
      match createBucketsLoop w1 rest with
      | (r, w2, tr) => (r, w2, .createBucket b :: tr)

/-- `self.bucket_names` plus the intermediate bucket, the list probed by
`create_s3_bucket` (lines 410-415). -/
def Config.bucketsToCheck (c : Config) : List String :=
  c.bucketNames ++
    (match c.intermediateBucketName with | some b => [b] | none => [])

/-- `create_s3_bucket` (lines 409-484): probe each bucket with `head_bucket`,
reuse the ones that exist and are accessible, then create the rest. -/
def createS3Bucket (c : Config) (w : World) :
    Except PyErr Unit × World × List ApiCall :=
  let toCheck := c.bucketsToCheck
  let existing := toCheck.filter (fun b => w.buckets.contains b)
  let toCreate := toCheck.filter (fun b => !(existing.contains b))
  match createBucketsLoop w toCreate with
  | (r, w1, tr) => (r, w1, toCheck.map ApiCall.headBucket ++ tr)

/-- `create_cloudwatch_log_group` (lines 486-522): create-or-adopt on
`ResourceAlreadyExistsException`, then best-effort retention policy. -/
def createCloudwatchLogGroup (c : Config) (w : World) :
    World × List ApiCall :=
  let g := c.logGroupName
  let w1 :=
    if w.logGroups.contains g then w
    else { w with logGroups := g :: w.logGroups }
  (w1, [.createLogGroup g, .putRetentionPolicy g])

/-- `attach_role_policy` effect on the world; re-attaching an attached
policy is a no-op (the call is idempotent, line 1058). -/
def attachPolicy (w : World) (r arn pname : String) : World :=
  if w.attachments.contains (r, arn, pname) then w
  else { w with attachments := (r, arn, pname) :: w.attachments }

/-- The policy names assembled for the execution role by
`create_bedrock_execution_role_multi_ds` (lines 926-974), in source order. -/
def Config.executionPolicyNames (c : Config) : List String :=
  [c.fmPolicyName, c.cwLogPolicyName]
  ++ (if c.bucketNames = [] then [] else [c.s3PolicyName])
  ++ (if c.secretsArns = [] then [] else [c.smPolicyName])
  ++ (if c.chunkingStrategy = "CUSTOM" then [c.lambdaPolicyName] else [])
  ++ (if c.multiModal then [c.bdaPolicyName] else [])
  ++ (if c.vectorStore = "NEPTUNE_ANALYTICS" then [c.neptunePolicyName] else [])

/-- The create-or-update-then-attach loop over policies in
`create_bedrock_execution_role_multi_ds` (lines 1010-1068).  An existing
policy is adopted by its deterministic ARN and a new default version is
written; attachment is idempotent. -/
def createPolicyLoop (acct roleName : String) (w : World) :
    List String → World × List ApiCall
  | [] => (w, [])
  | p :: rest =>
    let arn := policyArnFor acct p
    if w.policies.contains p then
      let w1 := attachPolicy w roleName arn p
      match createPolicyLoop acct roleName w1 rest with
      | (w2, tr) =>
        (w2, [.createPolicy p, .listPolicyVersions arn, .createPolicyVersion arn,
              .attachRolePolicy roleName arn] ++ tr)
    else
      let w1 :=
        attachPolicy { w with policies := p :: w.policies } roleName arn p
      match createPolicyLoop acct roleName w1 rest with
      | (w2, tr) => (w2, [.createPolicy p, .attachRolePolicy roleName arn] ++ tr)

/-- `create_bedrock_execution_role_multi_ds` (lines 724-1070): create the
execution role, adopting it via `get_role` on `EntityAlreadyExists`, then
create-or-update and attach every required policy.  Returns the role name. -/
def createBedrockExecutionRoleMultiDs (env : CallerEnv) (c : Config)
    (w : World) : String × World × List ApiCall :=
  let rn := c.kbExecutionRoleName
  if w.roles.contains rn then
    match createPolicyLoop env.accountNumber rn w c.executionPolicyNames with
    | (w1, tr) =>
      (rn, w1, [.createRole rn, .getRole rn, .updateAssumeRolePolicy rn] ++ tr)
  else
    let w0 := { w with roles := rn :: w.roles }
    match createPolicyLoop env.accountNumber rn w0 c.executionPolicyNames with
    | (w1, tr) => (rn, w1, .createRole rn :: tr)

/-- `create_policies_in_oss` (lines 1102-1202): the encryption, network and
data-access policies, each created and adopted via a `get` call on
`ConflictException`. -/
def createPoliciesInOss (c : Config) (w : World) : World × List ApiCall :=
  let en := c.encryptionPolicyName
  let nn := c.networkPolicyName
  let an := c.accessPolicyName
  let (w1, t1) :=
    if w.encryptionPolicies.contains en then
      (w, [ApiCall.createSecurityPolicy "encryption" en,
           ApiCall.getSecurityPolicy "encryption" en])
    else ({ w with encryptionPolicies := en :: w.encryptionPolicies },
          [ApiCall.createSecurityPolicy "encryption" en])
  let (w2, t2) :=
    if w1.networkPolicies.contains nn then
      (w1, [ApiCall.createSecurityPolicy "network" nn,
            ApiCall.getSecurityPolicy "network" nn])
    else ({ w1 with networkPolicies := nn :: w1.networkPolicies },
          [ApiCall.createSecurityPolicy "network" nn])
  let (w3, t3) :=
    if w2.accessPolicies.contains an then
      (w2, [ApiCall.createAccessPolicy an, ApiCall.getAccessPolicy an])
    else ({ w2 with accessPolicies := an :: w2.accessPolicies },
          [ApiCall.createAccessPolicy an])
  (w3, t1 ++ t2 ++ t3)

/-- `create_oss_policy_attach_bedrock_execution_role` (lines 1247-1277):
create-or-adopt the OSS access policy and attach it to the execution role. -/
def createOssPolicyAttach (env : CallerEnv) (c : Config) (roleName : String)
    (w : World) : World × List ApiCall :=
  let pn := c.ossPolicyName
  let arn := policyArnFor env.accountNumber pn
  if w.policies.contains pn then
    (attachPolicy w roleName arn pn,
     [.createPolicy pn, .attachRolePolicy roleName arn])
  else
    (attachPolicy { w with policies := pn :: w.policies } roleName arn pn,
     [.createPolicy pn, .attachRolePolicy roleName arn])

/-- `create_oss` (lines 1204-1245): create the collection, adopting it via
`batch_get_collection` on `ConflictException`; poll until it leaves
`CREATING` (collections in the model are immediately active, so one poll);
then attach the OSS policy to the execution role (best-effort).  Returns the
collection id. -/
def createOss (env : CallerEnv) (c : Config) (roleName : String) (w : World) :
    Nat × World × List ApiCall :=
  let n := c.vectorStoreName
  let (cid, w1, t1) :=
    match w.collections.lookup n with
    | some cid =>
      (cid, w, [ApiCall.createCollection n, ApiCall.batchGetCollection n])
    | none =>
      (w.nextId,
       { w with collections := (n, w.nextId) :: w.collections,
                nextId := w.nextId + 1 },
       [ApiCall.createCollection n])
  match createOssPolicyAttach env c roleName w1 with
  | (w2, t3) => (cid, w2, t1 ++ [ApiCall.batchGetCollection n] ++ t3)

/-- `create_vector_index` (lines 1279-1322).  The docstring of the source
says the index is ignored when it already exists, but the handler catches
`RequestError`, prints diagnostics and re-raises it, so an
already-existing index aborts the run. -/
def createVectorIndex (c : Config) (w : World) :
    Except PyErr Unit × World × List ApiCall :=
  if w.ossIndexes.contains c.indexName then
    (.error .requestError, w, [.createIndex c.indexName])
  else
    (.ok (), { w with ossIndexes := c.indexName :: w.ossIndexes },
     [.createIndex c.indexName])

/-- `create_neptune` (lines 1072-1100): `create_graph` has no
conflict handling at all, so an existing graph of the same name surfaces the
provider conflict; otherwise the graph is created and polled.  The graph
name is `self.kb_name` (line 147). -/
def createNeptune (c : Config) (w : World) :
    Except PyErr Nat × World × List ApiCall :=
  match w.graphs.lookup c.kbName with
  | some _ => (.error .conflict, w, [.createGraph c.kbName])
  | none =>
    (.ok w.nextId,
     { w with graphs := (c.kbName, w.nextId) :: w.graphs,
              nextId := w.nextId + 1 },
     [ApiCall.createGraph c.kbName, ApiCall.getGraph c.kbName])

/-- `create_lambda` and `create_lambda_role` (lines 612-722): create-or-adopt
the lambda role, attach the provider-managed basic execution policy (whose
ARN path segment is service-role) and a bucket-access policy, then create
the function.  Returns the lambda role name (appended to `self.roles`). -/
def createLambda (env : CallerEnv) (c : Config) (w : World) :
    String × World × List ApiCall :=
  let lr := c.kbName ++ "-lambda-role-" ++ c.suffix
  let basicArn := "arn:aws:iam::aws:policy/service-role/AWSLambdaBasicExecutionRole"
  let s3pn := c.kbName ++ "-s3-policy"
  let s3arn := policyArnFor env.accountNumber s3pn
  let fn := match c.lambdaFunctionName with | some f => f | none => ""
  let (w1, t1) :=
    if w.roles.contains lr then (w, [ApiCall.createRole lr, ApiCall.getRole lr])
    else ({ w with roles := lr :: w.roles }, [ApiCall.createRole lr])
  let w2 := attachPolicy w1 lr basicArn "AWSLambdaBasicExecutionRole"
  let (w3, t3) :=
    if w2.policies.contains s3pn then (w2, [ApiCall.createPolicy s3pn])
    else ({ w2 with policies := s3pn :: w2.policies }, [ApiCall.createPolicy s3pn])
  let w4 := attachPolicy w3 lr s3arn s3pn
  let w5 :=
    if w4.functions.contains fn then w4
    else { w4 with functions := fn :: w4.functions }
  (lr, w5,
   t1 ++ [ApiCall.attachRolePolicy lr basicArn] ++ t3
      ++ [ApiCall.attachRolePolicy lr s3arn, ApiCall.createFunction fn])

/-- `configure_log_delivery` (lines 524-610): source, destination and
delivery are each created-or-adopted; every failure is caught, so the
function never raises. -/
def configureLogDelivery (c : Config) (w : World) : World × List ApiCall :=
  let src := "bedrock-kb-" ++ c.kbName ++ "-source"
  let dst := "bedrock-kb-" ++ c.kbName ++ "-destination"
  let (w1, t1) :=
    if w.deliverySources.contains src then
      (w, [ApiCall.createDeliverySource src, ApiCall.describeDeliverySources src])
    else ({ w with deliverySources := src :: w.deliverySources },
          [ApiCall.createDeliverySource src])
  let (w2, t2) :=
    if w1.deliveryDestinations.contains dst then
      (w1, [ApiCall.createDeliveryDestination dst,
            ApiCall.describeDeliveryDestinations dst])
    else ({ w1 with deliveryDestinations := dst :: w1.deliveryDestinations },
          [ApiCall.createDeliveryDestination dst])
  let (w3, t3) :=
    if w2.deliveries.contains src then (w2, [ApiCall.createDelivery src])
    else ({ w2 with deliveries := src :: w2.deliveries },
          [ApiCall.createDelivery src])
  (w3, t1 ++ t2 ++ t3)

/-- Connector name per data-source type, as set in `create_data_sources`
(lines 1602-1675).  For a type outside the handled set the source leaves
`ds_name` unbound; the claims never exercise that case. -/
def dsNameFor (kbId : Nat) (d : DataSource) : String :=
  toString kbId ++
    (if d.type = "S3" then "-s3"
     else if d.type = "CONFLUENCE" then "-confluence"
     else if d.type = "SHAREPOINT" then "-sharepoint"
     else if d.type = "SALESFORCE" then "-salesforce"
     else if d.type = "WEB" then "-web"
     else "")

/-- The connector-creation loop of `create_data_sources` (lines 1491-1719):
one `create_data_source` call per descriptor; a conflict propagates
immediately to the caller. -/
def createDataSourcesLoop (kbId : Nat) (w : World) :
    List DataSource → Except PyErr (List Nat) × World × List ApiCall
  | [] => (.ok [], w, [])
  | d :: rest =>
    let n := dsNameFor kbId d
    if w.dataSources.any (fun x => x.1 == kbId && x.2.1 == n) then
      (.error .conflict, w, [.createDataSource kbId n])
    else
      let dsId := w.nextId
      let w1 := { w with dataSources := (kbId, n, dsId) :: w.dataSources,
                         nextId := w.nextId + 1 }
      match createDataSourcesLoop kbId w1 rest with
      | (.ok ids, w2, tr) => (.ok (dsId :: ids), w2, .createDataSource kbId n :: tr)
      | (.error e, w2, tr) => (.error e, w2, .createDataSource kbId n :: tr)

/-- One attempt of `create_knowledge_base` (lines 1390-1489).  The knowledge
base entity is created, with a `ConflictException` resolved by listing and
matching by name then fetching; log delivery is then wired (best-effort);
the data sources are created.  A `ConflictException` from connector creation
enters the adoption branch, which lists the data sources and fetches the
first summary, but the branch never assigns `ds_list`, so the final
`return kb, ds_list` raises `UnboundLocalError` (modelled as
`PyErr.unboundLocal`). -/
def createKnowledgeBase (c : Config) (w : World) :
    Except PyErr (Nat × List Nat) × World × List ApiCall :=
  let (kbId, w1, t1) :=
    match w.kbs.lookup c.kbName with
    | some kid =>
      (kid, w, [ApiCall.createKnowledgeBase c.kbName, ApiCall.listKnowledgeBases,
                ApiCall.getKnowledgeBase kid])
    | none =>
      (w.nextId,
       { w with kbs := (c.kbName, w.nextId) :: w.kbs, nextId := w.nextId + 1 },
       [ApiCall.createKnowledgeBase c.kbName])
  match configureLogDelivery c w1 with
  | (w2, t2) =>
    match createDataSourcesLoop kbId w2 c.dataSources with
    | (.ok ids, w3, t3) => (.ok (kbId, ids), w3, t1 ++ t2 ++ t3)
    | (.error .conflict, w3, t3) =>
      (match w3.dataSources.find? (fun x => x.1 == kbId) with
       | some x =>
         (.error .unboundLocal, w3,
          t1 ++ t2 ++ t3 ++ [ApiCall.listDataSources kbId,
                             ApiCall.getDataSource kbId x.2.2])
       | none =>
         (.error .indexError, w3, t1 ++ t2 ++ t3 ++ [ApiCall.listDataSources kbId]))
    | (.error e, w3, t3) => (.error e, w3, t1 ++ t2 ++ t3)

/-- The `@retry(..., stop_max_attempt_number=7)` decorator (line 1390): the
wrapped call is re-invoked on any exception, up to `fuel` attempts in
total, and the last exception propagates. -/
def retryCall (fuel : Nat) (f : World → Except PyErr α × World × List ApiCall)
    (w : World) : Except PyErr α × World × List ApiCall :=
  match fuel with
  | 0 => (.error .requestError, w, [])
  | 1 => f w
  | n + 2 =>
    match f w with
    | (.ok a, w1, t1) => (.ok a, w1, t1)
    | (.error _, w1, t1) =>
      match retryCall (n + 1) f w1 with
      | (r, w2, t2) => (r, w2, t1 ++ t2)

/-- The stable identifiers a successful `_setup_resources` run leaves on the
instance. -/
structure SetupResult where
  roleName : String
  collectionId : Option Nat
  graphId : Option Nat
  kbId : Nat
  dataSourceIds : List Nat
  deriving Repr, DecidableEq

/-- `_setup_resources` (lines 300-407): bucket(s), log group, execution
role, then the chosen index backend (OSS policies + collection + vector
index, or the Neptune graph), the optional lambda, and finally the
retry-wrapped knowledge-base step. -/
def setupResources (env : CallerEnv) (c : Config) (w : World) :
    Except PyErr SetupResult × World × List ApiCall :=
  match createS3Bucket c w with
  | (.error e, w1, t1) => (.error e, w1, t1)
  | (.ok _, w1, t1) =>
  match createCloudwatchLogGroup c w1 with
  | (w2, t2) =>
  match createBedrockExecutionRoleMultiDs env c w2 with
  | (roleName, w3, t3) =>
  if c.vectorStore = "OPENSEARCH_SERVERLESS" then
    match createPoliciesInOss c w3 with
    | (w4, t4) =>
    match createOss env c roleName w4 with
    | (cid, w5, t5) =>
    match createVectorIndex c w5 with
    | (.error e, w6, t6) =>
      (.error e, w6, t1 ++ t2 ++ t3 ++ t4 ++ t5 ++ t6)
    | (.ok _, w6, t6) =>
    match (if c.chunkingStrategy = "CUSTOM" then
             match createLambda env c w6 with | (_, wl, tl) => (wl, tl)
           else (w6, [])) with
    | (w7, t7) =>
    match retryCall 7 (createKnowledgeBase c) w7 with
    | (.ok (kbId, ids), w8, t8) =>
      (.ok { roleName := roleName, collectionId := some cid, graphId := none,
             kbId := kbId, dataSourceIds := ids }, w8,
       t1 ++ t2 ++ t3 ++ t4 ++ t5 ++ t6 ++ t7 ++ t8)
    | (.error e, w8, t8) =>
      (.error e, w8, t1 ++ t2 ++ t3 ++ t4 ++ t5 ++ t6 ++ t7 ++ t8)
  else
    match createNeptune c w3 with
    | (.error e, w4, t4) => (.error e, w4, t1 ++ t2 ++ t3 ++ t4)
    | (.ok gid, w4, t4) =>
    match (if c.chunkingStrategy = "CUSTOM" then
             match createLambda env c w4 with | (_, wl, tl) => (wl, tl)
           else (w4, [])) with
    | (w5, t5) =>
    match retryCall 7 (createKnowledgeBase c) w5 with
    | (.ok (kbId, ids), w6, t6) =>
      (.ok { roleName := roleName, collectionId := none, graphId := some gid,
             kbId := kbId, dataSourceIds := ids }, w6,
       t1 ++ t2 ++ t3 ++ t4 ++ t5 ++ t6)
    | (.error e, w6, t6) =>
      (.error e, w6, t1 ++ t2 ++ t3 ++ t4 ++ t5 ++ t6)

/-- `BedrockKnowledgeBase.__init__` (lines 96-213): the two STS
`get_caller_identity` calls (lines 135 and 137) are issued during client
setup, then `_validate_models` runs, and only on success does
`_setup_resources` provision anything. -/
def bkbInit (env : CallerEnv) (c : Config) (w : World) :
    Except PyErr SetupResult × World × List ApiCall :=
  let t0 := [ApiCall.stsGetCallerIdentity, ApiCall.stsGetCallerIdentity]
  match validateModels c with
  | .error e => (.error e, w, t0)
  | .ok _ =>
    match setupResources env c w with
    | (r, w1, t1) => (r, w1, t0 ++ t1)

/-- The instance attributes `delete_kb` reads: recorded data-source ids, the
knowledge base id, `self.roles`, the collection id and the graph id. -/
structure KbState where
  dataSourceIds : List Nat
  kbId : Nat
  roles : List String
  collectionId : Nat
  graphId : Nat
  deriving Repr, DecidableEq

/-- The data-source deletion loop of `delete_kb` (lines 1785-1799): each
`delete_data_source` has its `ResourceNotFoundException` and any other
exception caught, so the loop always runs to completion. -/
def deleteDataSourcesLoop (kbId : Nat) (w : World) :
    List Nat → World × List ApiCall
  | [] => (w, [])
  | d :: rest =>
    let w1 := { w with dataSources :=
        w.dataSources.filter (fun x => !(x.1 == kbId && x.2.2 == d)) }
    ((deleteDataSourcesLoop kbId w1 rest).1,
     .deleteDataSource d kbId :: (deleteDataSourcesLoop kbId w1 rest).2)

/-- The knowledge-base block of `delete_kb` (lines 1783-1810): data sources
first, then the entity; not-found and any other failure are caught. -/
def deleteKbEntityBlock (st : KbState) (w : World) : World × List ApiCall :=
  let w1 := (deleteDataSourcesLoop st.kbId w st.dataSourceIds).1
  ({ w1 with kbs := w1.kbs.filter (fun x => !(x.2 == st.kbId)) },
   (deleteDataSourcesLoop st.kbId w st.dataSourceIds).2
     ++ [.deleteKnowledgeBase st.kbId])

/-- The per-bucket loop of `delete_s3` (lines 1917-1933). -/
def deleteS3Loop (w : World) : List String → World × List ApiCall
  | [] => (w, [])
  | b :: rest =>
    if w.buckets.contains b then
      let w1 := { w with buckets := w.buckets.filter (fun x => !(x == b)) }
      ((deleteS3Loop w1 rest).1,
       [ApiCall.deleteObjects b, ApiCall.deleteBucket b] ++ (deleteS3Loop w1 rest).2)
    else deleteS3Loop w rest

/-- `delete_s3` (lines 1907-1935): for each bucket that exists, empty it and
delete it; missing buckets are skipped; every error is caught. -/
def deleteS3 (c : Config) (w : World) : World × List ApiCall :=
  deleteS3Loop w c.bucketsToCheck

/-- `delete_cloudwatch_log_group` (lines 1937-1953): not-found and any other
error are caught. -/
def deleteCloudwatchLogGroupM (c : Config) (w : World) :
    World × List ApiCall :=
  ({ w with logGroups := w.logGroups.filter (fun g => !(g == c.logGroupName)) },
   [.deleteLogGroup c.logGroupName])

/-- The detach-then-delete loop over one role of
`delete_iam_roles_and_policies` (lines 1884-1897): every attached policy is
detached; a policy whose ARN path segment 1 is service-role is skipped,
every other one is deleted.  `split("/")[1]` raises `IndexError` when the
ARN has no slash, and nothing catches it. -/
def detachLoop (r : String) (w : World) :
    List (String × String) → Except PyErr Unit × World × List ApiCall
  | [] => (.ok (), w, [])
  | (arn, pname) :: rest =>
    let w1 := { w with attachments :=
        w.attachments.filter (fun x => !(x.1 == r && x.2.1 == arn)) }
    match (arn.splitOn "/").get? 1 with
    | none => (.error .indexError, w1, [.detachRolePolicy r arn])
    | some seg =>
      if seg = "service-role" then
        ((detachLoop r w1 rest).1, (detachLoop r w1 rest).2.1,
         .detachRolePolicy r arn :: (detachLoop r w1 rest).2.2)
      else
        let w2 := { w1 with policies := w1.policies.filter (fun p => !(p == pname)) }
        ((detachLoop r w2 rest).1, (detachLoop r w2 rest).2.1,
         [ApiCall.detachRolePolicy r arn, ApiCall.deletePolicy arn]
           ++ (detachLoop r w2 rest).2.2)

/-- The role loop of `delete_iam_roles_and_policies` (lines 1869-1901): a
missing role is reported and skipped (`NoSuchEntityException` caught); for an
existing role the attached policies are listed, detached and deleted, then
the role is deleted. -/
def deleteIamLoop (w : World) :
    List String → Except PyErr Unit × World × List ApiCall
  | [] => (.ok (), w, [])
  | r :: rest =>
    if w.roles.contains r then
      let attached :=
        (w.attachments.filter (fun x => x.1 == r)).map (fun x => (x.2.1, x.2.2))
      match (detachLoop r w attached).1 with
      | .error e =>
        (.error e, (detachLoop r w attached).2.1,
         [.getRole r, .listAttachedRolePolicies r] ++ (detachLoop r w attached).2.2)
      | .ok _ =>
        let w1 := (detachLoop r w attached).2.1
        let w2 := { w1 with roles := w1.roles.filter (fun x => !(x == r)) }
        ((deleteIamLoop w2 rest).1, (deleteIamLoop w2 rest).2.1,
         [ApiCall.getRole r, ApiCall.listAttachedRolePolicies r]
           ++ (detachLoop r w attached).2.2
           ++ [ApiCall.deleteRole r] ++ (deleteIamLoop w2 rest).2.2)
    else
      ((deleteIamLoop w rest).1, (deleteIamLoop w rest).2.1,
       .getRole r :: (deleteIamLoop w rest).2.2)

/-- `delete_lambda_function` (lines 1955-1967): its own handler catches every
exception, so it never raises. -/
def deleteLambdaFunctionM (c : Config) (w : World) : World × List ApiCall :=
  let fn := match c.lambdaFunctionName with | some f => f | none => ""
  ({ w with functions := w.functions.filter (fun x => !(x == fn)) },
   [.deleteFunction fn])

/-- The vector-store block of `delete_kb` (lines 1831-1867): for OSS, the
collection then the three policies inside one `try`, so the first failure
skips the rest of the block (and is caught); for Neptune, deletion
protection is disabled and the graph deleted, errors caught. -/
def deleteVectorStoreBlock (c : Config) (st : KbState) (w : World) :
    World × List ApiCall :=
  if c.vectorStore = "OPENSEARCH_SERVERLESS" then
    if w.collections.any (fun x => x.2 == st.collectionId) then
      let w1 := { w with collections :=
          w.collections.filter (fun x => !(x.2 == st.collectionId)) }
      if w1.accessPolicies.contains c.accessPolicyName then
        let w2 := { w1 with accessPolicies :=
            w1.accessPolicies.filter (fun x => !(x == c.accessPolicyName)) }
        if w2.networkPolicies.contains c.networkPolicyName then
          let w3 := { w2 with networkPolicies :=
              w2.networkPolicies.filter (fun x => !(x == c.networkPolicyName)) }
          if w3.encryptionPolicies.contains c.encryptionPolicyName then
            let eps := w3.encryptionPolicies.filter
              (fun x => !(x == c.encryptionPolicyName))
            ({ w3 with encryptionPolicies := eps },
             [ApiCall.deleteCollection st.collectionId,
              ApiCall.deleteAccessPolicy c.accessPolicyName,
              ApiCall.deleteSecurityPolicy "network" c.networkPolicyName,
              ApiCall.deleteSecurityPolicy "encryption" c.encryptionPolicyName])
          else
            (w3, [ApiCall.deleteCollection st.collectionId,
                  ApiCall.deleteAccessPolicy c.accessPolicyName,
                  ApiCall.deleteSecurityPolicy "network" c.networkPolicyName,
                  ApiCall.deleteSecurityPolicy "encryption" c.encryptionPolicyName])
        else
          (w2, [ApiCall.deleteCollection st.collectionId,
                ApiCall.deleteAccessPolicy c.accessPolicyName,
                ApiCall.deleteSecurityPolicy "network" c.networkPolicyName])
      else
        (w1, [ApiCall.deleteCollection st.collectionId,
              ApiCall.deleteAccessPolicy c.accessPolicyName])
    else (w, [ApiCall.deleteCollection st.collectionId])
  else
    if w.graphs.any (fun x => x.2 == st.graphId) then
      ({ w with graphs := w.graphs.filter (fun x => !(x.2 == st.graphId)) },
       [ApiCall.updateGraph st.graphId, ApiCall.deleteGraph st.graphId])
    else (w, [ApiCall.updateGraph st.graphId])

/-- The optional bucket-deletion stage of `delete_kb` (lines 1812-1814). -/
def deleteKbStage2 (c : Config) (delS3 : Bool) (w1 : World) :
    World × List ApiCall :=
  if delS3 then deleteS3 c w1 else (w1, [])

/-- The optional IAM-cleanup stage of `delete_kb` (lines 1819-1821). -/
def deleteKbStage4 (delIam : Bool) (w3 : World) (roles : List String) :
    Except PyErr Unit × World × List ApiCall :=
  if delIam then deleteIamLoop w3 roles else (.ok (), w3, [])

/-- The optional lambda-deletion stage of `delete_kb` (lines 1823-1828). -/
def deleteKbStage5 (c : Config) (delLambda : Bool) (w4 : World) :
    World × List ApiCall :=
  if delLambda then deleteLambdaFunctionM c w4 else (w4, [])

/-- `delete_kb` (lines 1763-1867): entity block, optional buckets, log
group, optional IAM cleanup (whose `IndexError` is the only exception that
can escape), optional lambda, then the vector-store block. -/
def deleteKb (c : Config) (st : KbState)
    (delS3 delIam delLambda : Bool) (w : World) :
    Except PyErr Unit × World × List ApiCall :=
  let b1 := deleteKbEntityBlock st w
  let b2 := deleteKbStage2 c delS3 b1.1
  let b3 := deleteCloudwatchLogGroupM c b2.1
  let b4 := deleteKbStage4 delIam b3.1 st.roles
  match b4.1 with
  | .error e => (.error e, b4.2.1, b1.2 ++ b2.2 ++ b3.2 ++ b4.2.2)
  | .ok _ =>
    let b5 := deleteKbStage5 c delLambda b4.2.1
    let b6 := deleteVectorStoreBlock c st b5.1
    (.ok (), b6.1, b1.2 ++ b2.2 ++ b3.2 ++ b4.2.2 ++ b5.2 ++ b6.2)

/-- Terminal ingestion-job statuses polled for by `start_ingestion_job`
(line 1735). -/
def terminalStatuses : List String := ["COMPLETE", "FAILED", "STOPPED"]

/-- Provider behaviour for one data source during ingestion: either
`start_ingestion_job` raises, or it returns a job whose successive polled
statuses are `s0` then `seq`. -/
inductive IngestEnv where
  | startFails
  | job (s0 : String) (seq : List String)
  deriving Repr, DecidableEq

/-- Outcome recorded for one data source by the ingestion model. -/
inductive IngestOutcome where
  | startFailed
  | finished (status : String)
  | hung
  deriving Repr, DecidableEq

/-- The polling loop of `start_ingestion_job` (lines 1735-1741): re-fetch
the job while its status is not terminal.  Exhausting the modelled status
sequence corresponds to the loop never terminating. -/
def pollJob (idx : Nat) (s : String) (seq : List String) :
    Option String × List ApiCall :=
  if terminalStatuses.contains s then (some s, [])
  else
    match seq with
    | [] => (none, [])
    | s2 :: rest =>
      ((pollJob idx s2 rest).1,
       ApiCall.getIngestionJob idx :: (pollJob idx s2 rest).2)

/-- The per-data-source loop of `start_ingestion_job` (lines 1721-1747):
each iteration is wrapped in its own handler, so a failure for one data
source never prevents the later ones from being attempted. -/
def runIngestionAux (idx : Nat) (w : List IngestEnv) :
    List IngestOutcome × List ApiCall :=
  match w with
  | [] => ([], [])
  | env :: rest =>
    let outs := (runIngestionAux (idx + 1) rest).1
    let tr := (runIngestionAux (idx + 1) rest).2
    match env with
    | .startFails => (.startFailed :: outs, .startIngestionJob idx :: tr)
    | .job s0 seq =>
      match (pollJob idx s0 seq).1 with
      | some s =>
        (.finished s :: outs,
         .startIngestionJob idx :: (pollJob idx s0 seq).2 ++ tr)
      | none =>
        (.hung :: outs, .startIngestionJob idx :: (pollJob idx s0 seq).2 ++ tr)

/-- `start_ingestion_job` over the whole data-source list. -/
def runIngestion (envs : List IngestEnv) : List IngestOutcome × List ApiCall :=
  runIngestionAux 0 envs

/-! Concrete scenario used by several theorems: one S3 data source, fixed
chunking, OpenSearch Serverless backend, valid model identifiers. -/

def env0 : CallerEnv := { region := "us-west-2", accountNumber := "111122223333" }

def cfg1 : Config :=
  { kbName := "demo-kb", kbDescription := "Demo",
    dataSources := [{ type := "S3", bucketName := "demo-docs" }],
    multiModal := false, parserChoice := "",
    embeddingModel := "amazon.titan-embed-text-v2:0",
    generationModel := "amazon.nova-pro-v1:0",
    rerankingModel := "cohere.rerank-v3-5:0",
    graphModel := "anthropic.claude-haiku-4-5-20251001-v1:0",
    chunkingStrategy := "FIXED_SIZE", suffix := "sfx",
    vectorStore := "OPENSEARCH_SERVERLESS" }

/-- `cfg1` with an embedding model identifier outside every allow-list. -/
def badCfg : Config := { cfg1 with embeddingModel := "not-a-real-model" }

/-- `cfg1` with the multimodal flag set and a valid embedding model that is
outside the multimodal-compatible subset. -/
def mmBadCfg : Config :=
  { cfg1 with multiModal := true, embeddingModel := "amazon.titan-embed-text-v1" }

/-- The provider state left by one successful provisioning run of `cfg1`. -/
def worldAfterFirstRun : World := (bkbInit env0 cfg1 emptyWorld).2.1

/-! Helper lemmas about the fixed tables. -/

lemma lookup_of_mem_valid (m : String) (hm : m ∈ validEmbeddingModels) :
    ∃ d, embeddingContextDimensions.lookup m = some d := by
  fin_cases hm <;> exact ⟨_, rfl⟩

lemma cohere_lookup (m : String) (hm : m ∈ cohereV4Models) :
    embeddingContextDimensions.lookup m = some 1024 := by
  fin_cases hm <;> rfl

lemma compatible_subset_valid (m : String)
    (hm : m ∈ multimodalCompatibleModels) : m ∈ validEmbeddingModels := by
  fin_cases hm <;> decide

lemma ged_eq (c : Config) (d : Nat)
    (hd : embeddingContextDimensions.lookup c.embeddingModel = some d) :
    getEmbeddingDimensions c =
      if c.multiModal && cohereV4Models.contains c.embeddingModel then .ok 1024
      else .ok d := by
  simp [getEmbeddingDimensions, hd]

lemma ged_of_lookup (c : Config) (d : Nat)
    (hd : embeddingContextDimensions.lookup c.embeddingModel = some d) :
    getEmbeddingDimensions c = .ok d := by
  rw [ged_eq c d hd]
  cases hcond : (c.multiModal && cohereV4Models.contains c.embeddingModel)
  · simp
  · have hct : cohereV4Models.contains c.embeddingModel = true := by
      cases hmm : cohereV4Models.contains c.embeddingModel
      · rw [hmm, Bool.and_false] at hcond; cases hcond
      · rfl
    have hmem : c.embeddingModel ∈ cohereV4Models := by simpa using hct
    have h2 := cohere_lookup _ hmem
    rw [hd] at h2
    have h1024 : d = 1024 := Option.some_injective _ h2
    simp [h1024]

/-- C4: every embedding model in the allow-list `valid_embedding_models` has
an entry in the fixed table `embedding_context_dimensions`, and
`_get_embedding_dimensions` returns exactly that entry; for a model absent
from the table it raises a `ValueError`, never a default value. -/
theorem c4_dimension_lookup (c : Config) :
    (c.embeddingModel ∈ validEmbeddingModels →
      ∃ d, embeddingContextDimensions.lookup c.embeddingModel = some d ∧
        getEmbeddingDimensions c = .ok d) ∧
    (embeddingContextDimensions.lookup c.embeddingModel = none →
      getEmbeddingDimensions c = .error (.valueError
        ("Dimensions not defined for embedding model: " ++ c.embeddingModel))) := by
  constructor
  · intro hm
    obtain ⟨d, hd⟩ := lookup_of_mem_valid _ hm
    exact ⟨d, hd, ged_of_lookup c d hd⟩
  · intro h
    simp [getEmbeddingDimensions, h]

theorem c4_dimension_lookup_witness :
    ∃ d, embeddingContextDimensions.lookup cfg1.embeddingModel = some d ∧
      getEmbeddingDimensions cfg1 = .ok d :=
  (c4_dimension_lookup cfg1).1 (by decide)

/-- C10: for every embedding model present in the dimensions table,
`_get_embedding_dimensions` returns exactly the table entry, and the result
is independent of the `multi_modal` flag (the Cohere Embed v4 override
returns 1024, which equals those models table entries). -/
theorem c10_dimension_independent_of_multimodal (c : Config) (d : Nat)
    (h : embeddingContextDimensions.lookup c.embeddingModel = some d) :
    getEmbeddingDimensions c = .ok d ∧
    getEmbeddingDimensions { c with multiModal := true } =
      getEmbeddingDimensions { c with multiModal := false } := by
  refine ⟨ged_of_lookup c d h, ?_⟩
  have ht : getEmbeddingDimensions { c with multiModal := true } = .ok d :=
    ged_of_lookup _ d h
  have hf : getEmbeddingDimensions { c with multiModal := false } = .ok d :=
    ged_of_lookup _ d h
  rw [ht, hf]

theorem c10_dimension_independent_of_multimodal_witness :
    getEmbeddingDimensions cfg1 = .ok 1024 ∧
    getEmbeddingDimensions { cfg1 with multiModal := true } =
      getEmbeddingDimensions { cfg1 with multiModal := false } :=
  c10_dimension_independent_of_multimodal cfg1 1024 (by decide)

/-- C7: in the bucket-creation error handling, a `BucketAlreadyExists`
collision (name taken globally by another account) becomes a fatal
`ValueError` naming the bucket, while every other client-error code is
re-raised as-is; the two error shapes are distinct. -/
theorem c7_bucket_collision_fatal (name code : String)
    (h1 : code ≠ "BucketAlreadyExists") (h2 : code ≠ "BucketAlreadyOwnedByYou") :
    createBucketAttempt name (some "BucketAlreadyExists") =
      .error (.valueError ("Bucket name " ++ name ++
        " is already taken globally. Please use a different name.")) ∧
    createBucketAttempt name (some code) = .error (.clientError code) ∧
    (∀ m c2, PyErr.valueError m ≠ PyErr.clientError c2) := by
  refine ⟨rfl, ?_, by intro m c2 h; cases h⟩
  by_cases h3 : code = "AccessDenied"
  · subst h3; rfl
  · simp [createBucketAttempt, h1, h2, h3]

theorem c7_bucket_collision_fatal_witness :
    createBucketAttempt "demo-docs" (some "BucketAlreadyExists") =
      .error (.valueError ("Bucket name " ++ "demo-docs" ++
        " is already taken globally. Please use a different name.")) ∧
    createBucketAttempt "demo-docs" (some "SlowDown") =
      .error (.clientError "SlowDown") ∧
    (∀ m c2, PyErr.valueError m ≠ PyErr.clientError c2) :=
  c7_bucket_collision_fatal "demo-docs" "SlowDown" (by decide) (by decide)

/-- C3 counterexample: constructing the orchestrator with an invalid
embedding model does raise the validation `ValueError`, but the trace of
remote calls made before the failure is not empty: it contains the two STS
`get_caller_identity` calls (an external identity service) issued at
lines 135 and 137, before `_validate_models` runs at line 181.  This
refutes the claim that no call to any external service, including the
identity service, happens before the model-identifier validation. -/
theorem c3_counterexample :
    (bkbInit env0 badCfg emptyWorld).1 =
      .error (.valueError "Invalid embedding model.") ∧
    (bkbInit env0 badCfg emptyWorld).2.2 =
      [ApiCall.stsGetCallerIdentity, ApiCall.stsGetCallerIdentity] ∧
    ApiCall.stsGetCallerIdentity ∈ (bkbInit env0 badCfg emptyWorld).2.2 := by
  refine ⟨rfl, rfl, by decide⟩

/-- C3 (amended): with any model identifier outside its allow-list,
construction fails with a `ValueError` before any resource-provisioning
call: the world is unchanged and the only remote calls in the trace are the
two STS `get_caller_identity` calls issued during client setup. -/
theorem c3_validation_before_provisioning (env : CallerEnv) (c : Config)
    (w : World)
    (h : c.embeddingModel ∉ validEmbeddingModels ∨
         c.generationModel ∉ validGenerationModels ∨
         c.rerankingModel ∉ validRerankingModels) :
    ∃ msg, bkbInit env c w =
      (.error (.valueError msg), w,
       [ApiCall.stsGetCallerIdentity, ApiCall.stsGetCallerIdentity]) := by
  have hv : ∃ msg, validateModels c = .error (.valueError msg) := by
    unfold validateModels
    split_ifs with h1 h2 h3 h4 h5 <;>
      first
        | exact ⟨_, rfl⟩
        | (rcases h with h | h | h <;> tauto)
  obtain ⟨msg, hv⟩ := hv
  exact ⟨msg, by simp [bkbInit, hv]⟩

theorem c3_validation_before_provisioning_witness :
    ∃ msg, bkbInit env0 badCfg emptyWorld =
      (.error (.valueError msg), emptyWorld,
       [ApiCall.stsGetCallerIdentity, ApiCall.stsGetCallerIdentity]) :=
  c3_validation_before_provisioning env0 badCfg emptyWorld (Or.inl (by decide))

/-- C8: with the multimodal flag set and otherwise valid generation and
reranking models, construction fails with a validation `ValueError` before
any resource is provisioned (world unchanged, only the STS calls in the
trace) exactly when the embedding model is outside the
multimodal-compatible subset; a model inside the subset passes
`_validate_models`. -/
theorem c8_multimodal_validation (env : CallerEnv) (c : Config) (w : World)
    (hm : c.multiModal = true)
    (hg : c.generationModel ∈ validGenerationModels)
    (hr : c.rerankingModel ∈ validRerankingModels) :
    (c.embeddingModel ∉ multimodalCompatibleModels →
      ∃ msg, bkbInit env c w =
        (.error (.valueError msg), w,
         [ApiCall.stsGetCallerIdentity, ApiCall.stsGetCallerIdentity])) ∧
    (c.embeddingModel ∈ multimodalCompatibleModels →
      validateModels c = .ok ()) := by
  constructor
  · intro hnc
    have hv : ∃ msg, validateModels c = .error (.valueError msg) := by
      unfold validateModels
      split_ifs with h1 h2 h3 h4 h5 <;>
        first
          | exact ⟨_, rfl⟩
          | simp_all
    obtain ⟨msg, hv⟩ := hv
    exact ⟨msg, by simp [bkbInit, hv]⟩
  · intro hc
    have he : c.embeddingModel ∈ validEmbeddingModels :=
      compatible_subset_valid _ hc
    simp [validateModels, he, hg, hr, hm, hc]

theorem c8_multimodal_validation_witness :
    (mmBadCfg.embeddingModel ∉ multimodalCompatibleModels) ∧
    (∃ msg, bkbInit env0 mmBadCfg emptyWorld =
      (.error (.valueError msg), emptyWorld,
       [ApiCall.stsGetCallerIdentity, ApiCall.stsGetCallerIdentity])) :=
  ⟨by decide,
   (c8_multimodal_validation env0 mmBadCfg emptyWorld rfl (by decide)
      (by decide)).1 (by decide)⟩

/-- C1 (code bug): the first provisioning run of `cfg1` succeeds, returning
the deterministic role name, collection id 0, knowledge base id 1 and data
source id 2; but re-running the identical configuration on the resulting
provider state does not complete: `create_vector_index` re-raises the
`RequestError` produced by creating the already-existing index (even though
its docstring says an existing index is ignored), so the second run aborts
at Step 3c instead of adopting every resource and finishing. -/
theorem c1_second_provision_aborts :
    (bkbInit env0 cfg1 emptyWorld).1 =
      .ok { roleName := "AmazonBedrockExecutionRoleForKnowledgeBase_sfx",
            collectionId := some 0, graphId := none, kbId := 1,
            dataSourceIds := [2] } ∧
    (bkbInit env0 cfg1 worldAfterFirstRun).1 = .error .requestError := by
  exact ⟨rfl, rfl⟩

/-- C2 (code bug): invoking the retry-wrapped `create_knowledge_base` on a
state where the knowledge base and its data source already exist resolves
the entity conflict by adoption and, on the connector
`ConflictException`, does list the existing data sources and fetch one
(the adoption calls appear in the trace) — but the function then raises
`UnboundLocalError` at `return kb, ds_list`, because the conflict branch
never assigns `ds_list`; the retry decorator re-runs it and finally
propagates the same error instead of returning successfully. -/
theorem c2_connector_conflict_unbound_local :
    (retryCall 7 (createKnowledgeBase cfg1) worldAfterFirstRun).1 =
      .error .unboundLocal ∧
    ApiCall.listDataSources 1 ∈
      (createKnowledgeBase cfg1 worldAfterFirstRun).2.2 ∧
    ApiCall.getDataSource 1 2 ∈
      (createKnowledgeBase cfg1 worldAfterFirstRun).2.2 := by
  exact ⟨rfl, by decide, by decide⟩

/-! Structure-update helper lemmas: filtering an already-empty field leaves
the world unchanged. -/

lemma upd_dataSources (w : World) (f : Nat × String × Nat → Bool)
    (h : w.dataSources = []) :
    ({ w with dataSources := w.dataSources.filter f } : World) = w := by
  rcases w with ⟨b, fb, lg, r, p, a, e, n, ac, co, oi, g, fu, dsr, dd, dl, kb, ds, ni⟩
  change ds = [] at h
  subst h
  rfl

lemma upd_kbs (w : World) (f : String × Nat → Bool) (h : w.kbs = []) :
    ({ w with kbs := w.kbs.filter f } : World) = w := by
  rcases w with ⟨b, fb, lg, r, p, a, e, n, ac, co, oi, g, fu, dsr, dd, dl, kb, ds, ni⟩
  change kb = [] at h
  subst h
  rfl

lemma upd_logGroups (w : World) (f : String → Bool) (h : w.logGroups = []) :
    ({ w with logGroups := w.logGroups.filter f } : World) = w := by
  rcases w with ⟨b, fb, lg, r, p, a, e, n, ac, co, oi, g, fu, dsr, dd, dl, kb, ds, ni⟩
  change lg = [] at h
  subst h
  rfl

lemma upd_functions (w : World) (f : String → Bool) (h : w.functions = []) :
    ({ w with functions := w.functions.filter f } : World) = w := by
  rcases w with ⟨b, fb, lg, r, p, a, e, n, ac, co, oi, g, fu, dsr, dd, dl, kb, ds, ni⟩
  change fu = [] at h
  subst h
  rfl

/-! Behaviour of each teardown step on a world in which its targets are
absent: every provider call answers not-found, which the source reports and
survives. -/

lemma deleteDataSourcesLoop_missing (kbId : Nat) (l : List Nat) (w : World)
    (h : w.dataSources = []) :
    deleteDataSourcesLoop kbId w l =
      (w, l.map (fun d => ApiCall.deleteDataSource d kbId)) := by
  induction l with
  | nil => rfl
  | cons d rest ih =>
    simp only [deleteDataSourcesLoop]
    rw [upd_dataSources w _ h, ih]
    simp

lemma deleteKbEntityBlock_missing (st : KbState) (w : World)
    (h1 : w.dataSources = []) (h2 : w.kbs = []) :
    deleteKbEntityBlock st w =
      (w, st.dataSourceIds.map (fun d => ApiCall.deleteDataSource d st.kbId)
            ++ [ApiCall.deleteKnowledgeBase st.kbId]) := by
  simp only [deleteKbEntityBlock]
  rw [deleteDataSourcesLoop_missing st.kbId st.dataSourceIds w h1]
  rw [upd_kbs w _ h2]

lemma deleteS3Loop_missing (l : List String) (w : World)
    (h : w.buckets = []) :
    deleteS3Loop w l = (w, []) := by
  induction l with
  | nil => rfl
  | cons b rest ih =>
    simp only [deleteS3Loop]
    rw [h]
    simpa using ih

lemma deleteCloudwatchLogGroupM_missing (c : Config) (w : World)
    (h : w.logGroups = []) :
    deleteCloudwatchLogGroupM c w = (w, [ApiCall.deleteLogGroup c.logGroupName]) := by
  simp only [deleteCloudwatchLogGroupM]
  rw [upd_logGroups w _ h]

lemma deleteIamLoop_missing (l : List String) (w : World)
    (h : w.roles = []) :
    deleteIamLoop w l = (.ok (), w, l.map ApiCall.getRole) := by
  induction l with
  | nil => rfl
  | cons r rest ih =>
    simp only [deleteIamLoop]
    rw [h]
    simp [ih]

lemma deleteLambdaFunctionM_missing (c : Config) (w : World)
    (h : w.functions = []) :
    deleteLambdaFunctionM c w =
      (w, [ApiCall.deleteFunction
            (match c.lambdaFunctionName with | some f => f | none => "")]) := by
  simp only [deleteLambdaFunctionM]
  rw [upd_functions w _ h]

lemma deleteVectorStoreBlock_missing (c : Config) (st : KbState) (w : World)
    (hc : w.collections = []) (hg : w.graphs = []) :
    deleteVectorStoreBlock c st w =
      (w, if c.vectorStore = "OPENSEARCH_SERVERLESS"
          then [ApiCall.deleteCollection st.collectionId]
          else [ApiCall.updateGraph st.graphId]) := by
  by_cases hvs : c.vectorStore = "OPENSEARCH_SERVERLESS" <;>
    simp [deleteVectorStoreBlock, hvs, hc, hg]

/-- C5: running `delete_kb` against a provider state in which none of the
targeted resources exist (never created, or already deleted) completes
without raising, for every configuration, recorded instance state and
combination of the three deletion flags: every step sees not-found, reports
it and continues, and the world is left unchanged. -/
theorem c5_teardown_tolerates_missing (c : Config) (st : KbState)
    (dS dI dL : Bool) :
    (deleteKb c st dS dI dL emptyWorld).1 = .ok () ∧
    (deleteKb c st dS dI dL emptyWorld).2.1 = emptyWorld := by
  have h1 := deleteKbEntityBlock_missing st emptyWorld rfl rfl
  have h2 : deleteS3 c emptyWorld = (emptyWorld, []) := by
    simp only [deleteS3]
    exact deleteS3Loop_missing _ emptyWorld rfl
  have h3 := deleteCloudwatchLogGroupM_missing c emptyWorld rfl
  have h4 := deleteIamLoop_missing st.roles emptyWorld rfl
  have h5 := deleteLambdaFunctionM_missing c emptyWorld rfl
  have h6 := deleteVectorStoreBlock_missing c st emptyWorld rfl rfl
  cases dS <;> cases dI <;> cases dL <;>
    simp [deleteKb, deleteKbStage2, deleteKbStage4, deleteKbStage5,
      h1, h2, h3, h4, h5, h6]

/-! Ingestion lemmas (C9). -/

lemma pollJob_terminal (idx : Nat) :
    ∀ (seq : List String) (s r : String),
      (pollJob idx s seq).1 = some r → r ∈ terminalStatuses := by
  intro seq
  induction seq with
  | nil =>
    intro s r h
    by_cases ht : s ∈ terminalStatuses
    · simp [pollJob, ht] at h
      subst h
      exact ht
    · simp [pollJob, ht] at h
  | cons s2 rest ih =>
    intro s r h
    by_cases ht : s ∈ terminalStatuses
    · simp [pollJob, ht] at h
      subst h
      exact ht
    · simp only [pollJob] at h
      rw [if_neg (by simpa using ht)] at h
      exact ih s2 r h

lemma runIngestionAux_length (envs : List IngestEnv) :
    ∀ base, (runIngestionAux base envs).1.length = envs.length := by
  induction envs with
  | nil => intro base; rfl
  | cons e rest ih =>
    intro base
    cases e with
    | startFails => simp [runIngestionAux, ih]
    | job s0 seq =>
      rcases hp : (pollJob base s0 seq).1 with _ | s <;>
        simp [runIngestionAux, hp, ih]

lemma runIngestionAux_starts (envs : List IngestEnv) :
    ∀ base j, j < envs.length →
      ApiCall.startIngestionJob (base + j) ∈ (runIngestionAux base envs).2 := by
  induction envs with
  | nil => intro base j h; exact absurd h (by simp)
  | cons e rest ih =>
    intro base j hj
    cases j with
    | zero =>
      cases e with
      | startFails => simp [runIngestionAux]
      | job s0 seq =>
        rcases hp : (pollJob base s0 seq).1 with _ | s <;>
          simp [runIngestionAux, hp]
    | succ j2 =>
      have hj2 : j2 < rest.length := by simpa using hj
      have hm := ih (base + 1) j2 hj2
      have harith : base + 1 + j2 = base + (j2 + 1) := by omega
      rw [harith] at hm
      cases e with
      | startFails =>
        simp only [runIngestionAux]
        exact List.mem_cons_of_mem _ hm
      | job s0 seq =>
        rcases hp : (pollJob base s0 seq).1 with _ | s <;>
          simp only [runIngestionAux, hp] <;>
          exact List.mem_cons_of_mem _ (List.mem_append_right _ hm)

lemma runIngestionAux_finished (envs : List IngestEnv) :
    ∀ base i st, (runIngestionAux base envs).1.get? i = some (.finished st) →
      st ∈ terminalStatuses := by
  induction envs with
  | nil => intro base i st h; simp [runIngestionAux] at h
  | cons e rest ih =>
    intro base i st h
    cases i with
    | zero =>
      cases e with
      | startFails => simp [runIngestionAux] at h
      | job s0 seq =>
        rcases hp : (pollJob base s0 seq).1 with _ | s
        · simp [runIngestionAux, hp] at h
        · simp [runIngestionAux, hp] at h
          subst h
          exact pollJob_terminal base seq s0 s hp
    | succ i2 =>
      cases e with
      | startFails =>
        simp only [runIngestionAux, List.get?_cons_succ] at h
        exact ih (base + 1) i2 st h
      | job s0 seq =>
        rcases hp : (pollJob base s0 seq).1 with _ | s <;>
          · simp only [runIngestionAux, hp, List.get?_cons_succ] at h
            exact ih (base + 1) i2 st h

lemma runIngestionAux_startFailed (envs : List IngestEnv) :
    ∀ base i, envs.get? i = some .startFails →
      (runIngestionAux base envs).1.get? i = some .startFailed := by
  induction envs with
  | nil => intro base i h; simp at h
  | cons e rest ih =>
    intro base i h
    cases i with
    | zero =>
      simp at h
      subst h
      rfl
    | succ i2 =>
      simp only [List.get?_cons_succ] at h
      have := ih (base + 1) i2 h
      cases e with
      | startFails => simpa [runIngestionAux] using this
      | job s0 seq =>
        rcases hp : (pollJob base s0 seq).1 with _ | s <;>
          simpa [runIngestionAux, hp] using this

/-- C9: during ingestion every data source is attempted (a start call for
every index appears in the trace), a recorded final status is always one of
COMPLETE, FAILED or STOPPED (the polling loop only stops on a terminal
status), and an exception while starting or polling one data source is
caught and recorded as a failure for that index only, without aborting the
remaining data sources. -/
theorem c9_ingestion_polling_isolation (envs : List IngestEnv) :
    (runIngestion envs).1.length = envs.length ∧
    (∀ j, j < envs.length →
      ApiCall.startIngestionJob j ∈ (runIngestion envs).2) ∧
    (∀ i st, (runIngestion envs).1.get? i = some (.finished st) →
      st ∈ terminalStatuses) ∧
    (∀ i, envs.get? i = some .startFails →
      (runIngestion envs).1.get? i = some .startFailed) := by
  refine ⟨runIngestionAux_length envs 0, ?_, ?_, ?_⟩
  · intro j hj
    have := runIngestionAux_starts envs 0 j hj
    simpa [runIngestion] using this
  · intro i st h
    exact runIngestionAux_finished envs 0 i st h
  · intro i h
    exact runIngestionAux_startFailed envs 0 i h

/-- A concrete ingestion scenario: the first start raises, the second polls
to COMPLETE, the third is terminal immediately. -/
def envs0 : List IngestEnv :=
  [.startFails, .job "IN_PROGRESS" ["IN_PROGRESS", "COMPLETE"], .job "FAILED" []]

theorem c9_ingestion_polling_isolation_witness :
    (runIngestion envs0).1.length = envs0.length ∧
    ApiCall.startIngestionJob 2 ∈ (runIngestion envs0).2 ∧
    (runIngestion envs0).1.get? 0 = some .startFailed := by
  have h := c9_ingestion_polling_isolation envs0
  exact ⟨h.1, h.2.1 2 (by decide), h.2.2.2 0 (by decide)⟩

/-! Trace-ordering machinery for C6. -/

/-- True for the connector-delete calls of the knowledge base entity. -/
def isDeleteDataSourceCall : ApiCall → Bool
  | .deleteDataSource _ _ => true
  | _ => false

/-- True for the knowledge-base entity delete call. -/
def isDeleteKbCall : ApiCall → Bool
  | .deleteKnowledgeBase _ => true
  | _ => false

/-- True for a policy-detach call on role `r`. -/
def isDetachCallFor (r : String) : ApiCall → Bool
  | .detachRolePolicy r2 _ => r2 == r
  | _ => false

/-- True for the role-delete call on role `r`. -/
def isDeleteRoleCallFor (r : String) : ApiCall → Bool
  | .deleteRole r2 => r2 == r
  | _ => false

/-- True for a policy-delete call whose ARN path segment 1 is
service-role (the provider-managed policies the source must skip). -/
def isServiceRolePolicyDelete : ApiCall → Bool
  | .deletePolicy arn => (arn.splitOn "/").get? 1 == some "service-role"
  | _ => false

/-- After any event satisfying `q`, no event satisfying `p` ever occurs in
the rest of the trace; equivalently, every `p` event precedes every `q`
event. -/
def NoAfter (q p : ApiCall → Bool) : List ApiCall → Prop
  | [] => True
  | e :: t => (q e = true → ∀ x ∈ t, p x = false) ∧ NoAfter q p t

lemma noAfter_of_no_q (q p : ApiCall → Bool) :
    ∀ t, (∀ e ∈ t, q e = false) → NoAfter q p t := by
  intro t
  induction t with
  | nil => intro _; trivial
  | cons e t ih =>
    intro h
    refine ⟨fun hq => ?_, ih fun x hx => h x (List.mem_cons_of_mem _ hx)⟩
    rw [h e (List.mem_cons_self e t)] at hq
    cases hq

lemma noAfter_singleton (q p : ApiCall → Bool) (e : ApiCall) :
    NoAfter q p [e] := by
  refine ⟨fun _ x hx => absurd hx (List.not_mem_nil x), trivial⟩

lemma noAfter_cons_of_not_q (q p : ApiCall → Bool) (e : ApiCall)
    (t : List ApiCall) (he : q e = false) (ht : NoAfter q p t) :
    NoAfter q p (e :: t) := by
  refine ⟨fun hq => ?_, ht⟩
  rw [he] at hq
  cases hq

lemma noAfter_append (q p : ApiCall → Bool) :
    ∀ (a b : List ApiCall), NoAfter q p a → NoAfter q p b →
      (∀ e ∈ a, q e = true → ∀ x ∈ b, p x = false) →
      NoAfter q p (a ++ b) := by
  intro a
  induction a with
  | nil => intro b _ hb _; exact hb
  | cons e t ih =>
    intro b ha hb hab
    obtain ⟨h1, h2⟩ := ha
    refine ⟨?_, ih b h2 hb fun x hx => hab x (List.mem_cons_of_mem _ hx)⟩
    intro hq x hx
    rcases List.mem_append.mp hx with hx | hx
    · exact h1 hq x hx
    · exact hab e (List.mem_cons_self e t) hq x hx

lemma noAfter_append_no_q (q p : ApiCall → Bool) (a b : List ApiCall)
    (ha : ∀ e ∈ a, q e = false) (hb : NoAfter q p b) :
    NoAfter q p (a ++ b) := by
  refine noAfter_append q p a b (noAfter_of_no_q q p a ha) hb ?_
  intro e he hq
  rw [ha e he] at hq
  cases hq

lemma noAfter_append_no_p (q p : ApiCall → Bool) (a b : List ApiCall)
    (ha : NoAfter q p a) (hb : NoAfter q p b)
    (hbp : ∀ x ∈ b, p x = false) :
    NoAfter q p (a ++ b) :=
  noAfter_append q p a b ha hb fun _ _ _ x hx => hbp x hx

/-- Events emitted by the bucket, log-group, lambda and index-backend
teardown steps: none of them is a connector, entity, policy or role
deletion call. -/
def isBenignTeardownCall : ApiCall → Bool
  | .deleteObjects _ => true
  | .deleteBucket _ => true
  | .deleteLogGroup _ => true
  | .deleteFunction _ => true
  | .deleteCollection _ => true
  | .deleteAccessPolicy _ => true
  | .deleteSecurityPolicy _ _ => true
  | .updateGraph _ => true
  | .deleteGraph _ => true
  | _ => false

lemma benign_props (e : ApiCall) (h : isBenignTeardownCall e = true) :
    isDeleteDataSourceCall e = false ∧ isDeleteKbCall e = false ∧
    (∀ r, isDetachCallFor r e = false) ∧
    (∀ r, isDeleteRoleCallFor r e = false) ∧
    isServiceRolePolicyDelete e = false := by
  cases e <;>
    simp_all [isBenignTeardownCall, isDeleteDataSourceCall, isDeleteKbCall,
      isDetachCallFor, isDeleteRoleCallFor, isServiceRolePolicyDelete]

lemma all_imp_mem {t : List ApiCall} {f : ApiCall → Bool}
    (h : t.all f = true) : ∀ e ∈ t, f e = true := by
  intro e he
  exact List.all_eq_true.mp h e he

lemma ddsl_events (kbId : Nat) : ∀ (l : List Nat) (w : World) (e : ApiCall),
    e ∈ (deleteDataSourcesLoop kbId w l).2 →
      isDeleteDataSourceCall e = true := by
  intro l
  induction l with
  | nil => intro w e he; simp [deleteDataSourcesLoop] at he
  | cons d rest ih =>
    intro w e he
    simp only [deleteDataSourcesLoop, List.mem_cons] at he
    rcases he with rfl | he
    · rfl
    · exact ih _ e he

lemma entityBlock_events (st : KbState) (w : World) (e : ApiCall)
    (he : e ∈ (deleteKbEntityBlock st w).2) :
    isDeleteDataSourceCall e = true ∨ e = .deleteKnowledgeBase st.kbId := by
  simp only [deleteKbEntityBlock, List.mem_append, List.mem_singleton] at he
  rcases he with he | rfl
  · exact Or.inl (ddsl_events st.kbId _ _ e he)
  · exact Or.inr rfl

lemma entityBlock_noAfter (st : KbState) (w : World) :
    NoAfter isDeleteKbCall isDeleteDataSourceCall
      (deleteKbEntityBlock st w).2 := by
  simp only [deleteKbEntityBlock]
  refine noAfter_append_no_q _ _ _ _ ?_ (noAfter_singleton _ _ _)
  intro e he
  have h := ddsl_events st.kbId _ _ e he
  cases e <;> simp_all [isDeleteDataSourceCall, isDeleteKbCall]

lemma deleteS3Loop_benign : ∀ (l : List String) (w : World) (e : ApiCall),
    e ∈ (deleteS3Loop w l).2 → isBenignTeardownCall e = true := by
  intro l
  induction l with
  | nil => intro w e he; simp [deleteS3Loop] at he
  | cons b rest ih =>
    intro w e he
    by_cases hb : w.buckets.contains b = true
    · rw [deleteS3Loop, if_pos hb] at he
      simp at he
      rcases he with rfl | rfl | he
      · rfl
      · rfl
      · exact ih _ e he
    · rw [deleteS3Loop, if_neg hb] at he
      exact ih _ e he

lemma cloudwatch_all_benign (c : Config) (w : World) :
    ((deleteCloudwatchLogGroupM c w).2).all isBenignTeardownCall = true := by
  simp [deleteCloudwatchLogGroupM, isBenignTeardownCall]

lemma lambda_all_benign (c : Config) (w : World) :
    ((deleteLambdaFunctionM c w).2).all isBenignTeardownCall = true := by
  simp [deleteLambdaFunctionM, isBenignTeardownCall]

lemma vector_all_benign (c : Config) (st : KbState) (w : World) :
    ((deleteVectorStoreBlock c st w).2).all isBenignTeardownCall = true := by
  simp only [deleteVectorStoreBlock]
  split_ifs <;> simp [isBenignTeardownCall]

lemma detachLoop_shape (r : String) :
    ∀ (l : List (String × String)) (w : World) (e : ApiCall),
      e ∈ (detachLoop r w l).2.2 →
        (∃ arn, e = .detachRolePolicy r arn) ∨
        (∃ arn seg, e = .deletePolicy arn ∧
          (arn.splitOn "/").get? 1 = some seg ∧ seg ≠ "service-role") := by
  intro l
  induction l with
  | nil => intro w e he; simp [detachLoop] at he
  | cons ap rest ih =>
    intro w e he
    obtain ⟨arn, pname⟩ := ap
    rw [detachLoop] at he
    rcases hseg : (arn.splitOn "/").get? 1 with _ | seg
    · rw [hseg] at he
      simp at he
      subst he
      exact Or.inl ⟨arn, rfl⟩
    · by_cases hsr : seg = "service-role"
      · simp only [hseg, if_pos hsr] at he
        simp at he
        rcases he with rfl | he
        · exact Or.inl ⟨arn, rfl⟩
        · exact ih _ e he
      · simp only [hseg, if_neg hsr] at he
        simp at he
        rcases he with rfl | rfl | he
        · exact Or.inl ⟨arn, rfl⟩
        · exact Or.inr ⟨arn, seg, rfl, hseg, hsr⟩
        · exact ih _ e he

lemma detachLoop_roles (r : String) :
    ∀ (l : List (String × String)) (w : World),
      (detachLoop r w l).2.1.roles = w.roles := by
  intro l
  induction l with
  | nil => intro w; rfl
  | cons ap rest ih =>
    intro w
    obtain ⟨arn, pname⟩ := ap
    rw [detachLoop]
    rcases hseg : (arn.splitOn "/").get? 1 with _ | seg
    · rfl
    · by_cases hsr : seg = "service-role"
      · simp only [hseg, if_pos hsr]
        exact (ih _).trans rfl
      · simp only [hseg, if_neg hsr]
        exact (ih _).trans rfl

lemma detachLoop_no_deleteRole (r r2 : String) (l : List (String × String))
    (w : World) : ∀ e ∈ (detachLoop r w l).2.2,
      isDeleteRoleCallFor r2 e = false := by
  intro e he
  rcases detachLoop_shape r l w e he with ⟨arn, rfl⟩ | ⟨arn, seg, rfl, _, _⟩ <;>
    rfl

lemma iam_events (l : List String) : ∀ (w : World) (e : ApiCall),
    e ∈ (deleteIamLoop w l).2.2 →
      ((∃ n, e = .getRole n) ∨ (∃ n, e = .listAttachedRolePolicies n) ∨
       (∃ n arn, e = .detachRolePolicy n arn) ∨ (∃ n, e = .deleteRole n) ∨
       (∃ arn seg, e = .deletePolicy arn ∧
         (arn.splitOn "/").get? 1 = some seg ∧ seg ≠ "service-role")) := by
  induction l with
  | nil => intro w e he; simp [deleteIamLoop] at he
  | cons r2 rest ih =>
    intro w e he
    by_cases hr : w.roles.contains r2 = true
    · rw [deleteIamLoop, if_pos hr] at he
      dsimp only at he
      set A := (w.attachments.filter (fun x => x.1 == r2)).map
        (fun x => (x.2.1, x.2.2)) with hA
      rcases hdl : (detachLoop r2 w A).1 with perr | u
      · rw [hdl] at he
        simp at he
        rcases he with rfl | rfl | he
        · exact Or.inl ⟨r2, rfl⟩
        · exact Or.inr (Or.inl ⟨r2, rfl⟩)
        · rcases detachLoop_shape r2 A w e he with ⟨arn, rfl⟩ | ⟨arn, seg, rfl, h1, h2⟩
          · exact Or.inr (Or.inr (Or.inl ⟨r2, arn, rfl⟩))
          · exact Or.inr (Or.inr (Or.inr (Or.inr ⟨arn, seg, rfl, h1, h2⟩)))
      · rw [hdl] at he
        simp at he
        rcases he with rfl | rfl | he | rfl | he
        · exact Or.inl ⟨r2, rfl⟩
        · exact Or.inr (Or.inl ⟨r2, rfl⟩)
        · rcases detachLoop_shape r2 A w e he with ⟨arn, rfl⟩ | ⟨arn, seg, rfl, h1, h2⟩
          · exact Or.inr (Or.inr (Or.inl ⟨r2, arn, rfl⟩))
          · exact Or.inr (Or.inr (Or.inr (Or.inr ⟨arn, seg, rfl, h1, h2⟩)))
        · exact Or.inr (Or.inr (Or.inr (Or.inl ⟨r2, rfl⟩)))
        · exact ih _ e he
    · rw [deleteIamLoop, if_neg hr] at he
      simp at he
      rcases he with rfl | he
      · exact Or.inl ⟨r2, rfl⟩
      · exact ih _ e he

lemma iam_not_ds_kb (l : List String) (w : World) (e : ApiCall)
    (he : e ∈ (deleteIamLoop w l).2.2) :
    isDeleteDataSourceCall e = false ∧ isDeleteKbCall e = false := by
  rcases iam_events l w e he with
    ⟨n, rfl⟩ | ⟨n, rfl⟩ | ⟨n, arn, rfl⟩ | ⟨n, rfl⟩ | ⟨arn, seg, rfl, _, _⟩ <;>
    exact ⟨rfl, rfl⟩

lemma iam_no_service (l : List String) (w : World) (e : ApiCall)
    (he : e ∈ (deleteIamLoop w l).2.2) :
    isServiceRolePolicyDelete e = false := by
  rcases iam_events l w e he with
    ⟨n, rfl⟩ | ⟨n, rfl⟩ | ⟨n, arn, rfl⟩ | ⟨n, rfl⟩ | ⟨arn, seg, rfl, h1, h2⟩
  · rfl
  · rfl
  · rfl
  · rfl
  · simp only [isServiceRolePolicyDelete]
    rw [h1]
    simp [h2]

lemma iam_no_r_events (r : String) (l : List String) : ∀ (w : World),
    r ∉ w.roles → ∀ e ∈ (deleteIamLoop w l).2.2,
      isDetachCallFor r e = false ∧ isDeleteRoleCallFor r e = false := by
  induction l with
  | nil => intro w _ e he; simp [deleteIamLoop] at he
  | cons r2 rest ih =>
    intro w hw e he
    by_cases hr : w.roles.contains r2 = true
    · have hne : r2 ≠ r := by
        intro hEq
        subst hEq
        exact hw (by simpa using hr)
      rw [deleteIamLoop, if_pos hr] at he
      dsimp only at he
      set A := (w.attachments.filter (fun x => x.1 == r2)).map
        (fun x => (x.2.1, x.2.2)) with hA
      rcases hdl : (detachLoop r2 w A).1 with perr | u
      · rw [hdl] at he
        simp at he
        rcases he with rfl | rfl | he
        · exact ⟨rfl, rfl⟩
        · exact ⟨rfl, rfl⟩
        · rcases detachLoop_shape r2 A w e he with ⟨arn, rfl⟩ | ⟨arn, seg, rfl, _, _⟩
          · exact ⟨by simp [isDetachCallFor, hne], rfl⟩
          · exact ⟨rfl, rfl⟩
      · rw [hdl] at he
        simp at he
        rcases he with rfl | rfl | he | rfl | he
        · exact ⟨rfl, rfl⟩
        · exact ⟨rfl, rfl⟩
        · rcases detachLoop_shape r2 A w e he with ⟨arn, rfl⟩ | ⟨arn, seg, rfl, _, _⟩
          · exact ⟨by simp [isDetachCallFor, hne], rfl⟩
          · exact ⟨rfl, rfl⟩
        · exact ⟨rfl, by simp [isDeleteRoleCallFor, hne]⟩
        · refine ih _ ?_ e he
          intro hmem
          have h2 := (List.mem_filter.mp hmem).1
          rw [detachLoop_roles r2 A w] at h2
          exact hw h2
    · rw [deleteIamLoop, if_neg hr] at he
      simp at he
      rcases he with rfl | he
      · exact ⟨rfl, rfl⟩
      · exact ih _ hw e he

lemma iam_noAfter (r : String) (l : List String) : ∀ (w : World),
    NoAfter (isDeleteRoleCallFor r) (isDetachCallFor r)
      (deleteIamLoop w l).2.2 := by
  induction l with
  | nil => intro w; exact trivial
  | cons r2 rest ih =>
    intro w
    by_cases hr : w.roles.contains r2 = true
    · rw [deleteIamLoop, if_pos hr]
      dsimp only
      set A := (w.attachments.filter (fun x => x.1 == r2)).map
        (fun x => (x.2.1, x.2.2)) with hA
      rcases hdl : (detachLoop r2 w A).1 with perr | u
      · dsimp only
        refine noAfter_of_no_q _ _ _ ?_
        intro e he
        simp at he
        rcases he with rfl | rfl | he
        · rfl
        · rfl
        · exact detachLoop_no_deleteRole r2 r A w e he
      · dsimp only
        simp only [List.append_assoc, List.cons_append, List.nil_append]
        refine noAfter_cons_of_not_q _ _ _ _ rfl ?_
        refine noAfter_cons_of_not_q _ _ _ _ rfl ?_
        refine noAfter_append_no_q _ _ _ _ ?_ ?_
        · intro e he
          exact detachLoop_no_deleteRole r2 r A w e he
        · refine ⟨fun hq x hx => ?_, ih _⟩
          have hrr : r2 = r := by simpa [isDeleteRoleCallFor] using hq
          subst hrr
          refine (iam_no_r_events r2 rest _ ?_ x hx).1
          intro hmem
          have h2 := List.mem_filter.mp hmem
          simp at h2
    · rw [deleteIamLoop, if_neg hr]
      dsimp only
      exact noAfter_cons_of_not_q _ _ _ _ rfl (ih w)

/-- A connector-delete event satisfies none of the other predicates. -/
lemma ds_true_props (e : ApiCall) (h : isDeleteDataSourceCall e = true) :
    isDeleteKbCall e = false ∧
    (∀ r, isDetachCallFor r e = false ∧ isDeleteRoleCallFor r e = false) ∧
    isServiceRolePolicyDelete e = false := by
  cases e <;>
    simp_all [isDeleteDataSourceCall, isDeleteKbCall, isDetachCallFor,
      isDeleteRoleCallFor, isServiceRolePolicyDelete]

lemma stage2_benign (c : Config) (dS : Bool) (w1 : World) :
    ∀ e ∈ (deleteKbStage2 c dS w1).2, isBenignTeardownCall e = true := by
  cases dS
  · intro e he
    simp [deleteKbStage2] at he
  · intro e he
    simp only [deleteKbStage2, if_pos rfl, deleteS3] at he
    exact deleteS3Loop_benign _ _ e he

lemma stage5_benign (c : Config) (dL : Bool) (w4 : World) :
    ∀ e ∈ (deleteKbStage5 c dL w4).2, isBenignTeardownCall e = true := by
  cases dL
  · intro e he
    simp [deleteKbStage5] at he
  · intro e he
    simp only [deleteKbStage5, if_pos rfl] at he
    exact all_imp_mem (lambda_all_benign c w4) e he

lemma stage4_not_ds_kb (dI : Bool) (w3 : World) (roles : List String) :
    ∀ e ∈ (deleteKbStage4 dI w3 roles).2.2,
      isDeleteDataSourceCall e = false ∧ isDeleteKbCall e = false := by
  cases dI
  · intro e he
    simp [deleteKbStage4] at he
  · intro e he
    simp only [deleteKbStage4, if_pos rfl] at he
    exact iam_not_ds_kb roles w3 e he

lemma stage4_no_service (dI : Bool) (w3 : World) (roles : List String) :
    ∀ e ∈ (deleteKbStage4 dI w3 roles).2.2,
      isServiceRolePolicyDelete e = false := by
  cases dI
  · intro e he
    simp [deleteKbStage4] at he
  · intro e he
    simp only [deleteKbStage4, if_pos rfl] at he
    exact iam_no_service roles w3 e he

lemma stage4_noAfter (r : String) (dI : Bool) (w3 : World)
    (roles : List String) :
    NoAfter (isDeleteRoleCallFor r) (isDetachCallFor r)
      (deleteKbStage4 dI w3 roles).2.2 := by
  cases dI
  · exact trivial
  · simp only [deleteKbStage4, if_pos rfl]
    exact iam_noAfter r roles w3

lemma assembleOrdering4 (kbId : Nat) (t1 t2 t3 t4 : List ApiCall)
    (h1na : NoAfter isDeleteKbCall isDeleteDataSourceCall t1)
    (h1ev : ∀ e ∈ t1,
      isDeleteDataSourceCall e = true ∨ e = .deleteKnowledgeBase kbId)
    (h2 : ∀ e ∈ t2, isBenignTeardownCall e = true)
    (h3 : ∀ e ∈ t3, isBenignTeardownCall e = true)
    (h4a : ∀ e ∈ t4, isDeleteDataSourceCall e = false ∧ isDeleteKbCall e = false)
    (h4b : ∀ e ∈ t4, isServiceRolePolicyDelete e = false)
    (h4c : ∀ r, NoAfter (isDeleteRoleCallFor r) (isDetachCallFor r) t4) :
    NoAfter isDeleteKbCall isDeleteDataSourceCall (t1 ++ t2 ++ t3 ++ t4) ∧
    (∀ r, NoAfter (isDeleteRoleCallFor r) (isDetachCallFor r)
      (t1 ++ t2 ++ t3 ++ t4)) ∧
    ∀ e ∈ t1 ++ t2 ++ t3 ++ t4, isServiceRolePolicyDelete e = false := by
  refine ⟨?_, ?_, ?_⟩
  · simp only [List.append_assoc]
    refine noAfter_append_no_p _ _ _ _ h1na (noAfter_of_no_q _ _ _ ?_) ?_
    · intro e he
      simp only [List.mem_append] at he
      rcases he with he | he | he
      · exact (benign_props e (h2 e he)).2.1
      · exact (benign_props e (h3 e he)).2.1
      · exact (h4a e he).2
    · intro e he
      simp only [List.mem_append] at he
      rcases he with he | he | he
      · exact (benign_props e (h2 e he)).1
      · exact (benign_props e (h3 e he)).1
      · exact (h4a e he).1
  · intro r
    simp only [List.append_assoc]
    refine noAfter_append_no_q _ _ _ _ ?_ ?_
    · intro e he
      rcases h1ev e he with hds | rfl
      · exact ((ds_true_props e hds).2.1 r).2
      · rfl
    refine noAfter_append_no_q _ _ _ _ ?_ ?_
    · intro e he
      exact (benign_props e (h2 e he)).2.2.2.1 r
    refine noAfter_append_no_q _ _ _ _ ?_ (h4c r)
    intro e he
    exact (benign_props e (h3 e he)).2.2.2.1 r
  · intro e he
    simp only [List.append_assoc, List.mem_append] at he
    rcases he with he | he | he | he
    · rcases h1ev e he with hds | rfl
      · exact (ds_true_props e hds).2.2
      · rfl
    · exact (benign_props e (h2 e he)).2.2.2.2
    · exact (benign_props e (h3 e he)).2.2.2.2
    · exact h4b e he

lemma assembleOrdering6 (kbId : Nat) (t1 t2 t3 t4 t5 t6 : List ApiCall)
    (h1na : NoAfter isDeleteKbCall isDeleteDataSourceCall t1)
    (h1ev : ∀ e ∈ t1,
      isDeleteDataSourceCall e = true ∨ e = .deleteKnowledgeBase kbId)
    (h2 : ∀ e ∈ t2, isBenignTeardownCall e = true)
    (h3 : ∀ e ∈ t3, isBenignTeardownCall e = true)
    (h4a : ∀ e ∈ t4, isDeleteDataSourceCall e = false ∧ isDeleteKbCall e = false)
    (h4b : ∀ e ∈ t4, isServiceRolePolicyDelete e = false)
    (h4c : ∀ r, NoAfter (isDeleteRoleCallFor r) (isDetachCallFor r) t4)
    (h5 : ∀ e ∈ t5, isBenignTeardownCall e = true)
    (h6 : ∀ e ∈ t6, isBenignTeardownCall e = true) :
    NoAfter isDeleteKbCall isDeleteDataSourceCall
      (t1 ++ t2 ++ t3 ++ t4 ++ t5 ++ t6) ∧
    (∀ r, NoAfter (isDeleteRoleCallFor r) (isDetachCallFor r)
      (t1 ++ t2 ++ t3 ++ t4 ++ t5 ++ t6)) ∧
    ∀ e ∈ t1 ++ t2 ++ t3 ++ t4 ++ t5 ++ t6,
      isServiceRolePolicyDelete e = false := by
  refine ⟨?_, ?_, ?_⟩
  · simp only [List.append_assoc]
    refine noAfter_append_no_p _ _ _ _ h1na (noAfter_of_no_q _ _ _ ?_) ?_
    · intro e he
      simp only [List.mem_append] at he
      rcases he with he | he | he | he | he
      · exact (benign_props e (h2 e he)).2.1
      · exact (benign_props e (h3 e he)).2.1
      · exact (h4a e he).2
      · exact (benign_props e (h5 e he)).2.1
      · exact (benign_props e (h6 e he)).2.1
    · intro e he
      simp only [List.mem_append] at he
      rcases he with he | he | he | he | he
      · exact (benign_props e (h2 e he)).1
      · exact (benign_props e (h3 e he)).1
      · exact (h4a e he).1
      · exact (benign_props e (h5 e he)).1
      · exact (benign_props e (h6 e he)).1
  · intro r
    simp only [List.append_assoc]
    refine noAfter_append_no_q _ _ _ _ ?_ ?_
    · intro e he
      rcases h1ev e he with hds | rfl
      · exact ((ds_true_props e hds).2.1 r).2
      · rfl
    refine noAfter_append_no_q _ _ _ _ ?_ ?_
    · intro e he
      exact (benign_props e (h2 e he)).2.2.2.1 r
    refine noAfter_append_no_q _ _ _ _ ?_ ?_
    · intro e he
      exact (benign_props e (h3 e he)).2.2.2.1 r
    refine noAfter_append_no_p _ _ _ _ (h4c r) (noAfter_of_no_q _ _ _ ?_) ?_
    · intro e he
      rcases List.mem_append.mp he with he | he
      · exact (benign_props e (h5 e he)).2.2.2.1 r
      · exact (benign_props e (h6 e he)).2.2.2.1 r
    · intro e he
      rcases List.mem_append.mp he with he | he
      · exact (benign_props e (h5 e he)).2.2.1 r
      · exact (benign_props e (h6 e he)).2.2.1 r
  · intro e he
    simp only [List.append_assoc, List.mem_append] at he
    rcases he with he | he | he | he | he | he
    · rcases h1ev e he with hds | rfl
      · exact (ds_true_props e hds).2.2
      · rfl
    · exact (benign_props e (h2 e he)).2.2.2.2
    · exact (benign_props e (h3 e he)).2.2.2.2
    · exact h4b e he
    · exact (benign_props e (h5 e he)).2.2.2.2
    · exact (benign_props e (h6 e he)).2.2.2.2

/-- C6: in every trace produced by `delete_kb`, each connector-delete call
precedes the knowledge-base entity delete call; for every role, each
policy-detach call on that role precedes that role's delete call; and no
policy whose ARN path segment is service-role is ever deleted. -/
theorem c6_teardown_ordering (c : Config) (st : KbState)
    (dS dI dL : Bool) (w : World) :
    NoAfter isDeleteKbCall isDeleteDataSourceCall
      (deleteKb c st dS dI dL w).2.2 ∧
    (∀ r, NoAfter (isDeleteRoleCallFor r) (isDetachCallFor r)
      (deleteKb c st dS dI dL w).2.2) ∧
    ∀ e ∈ (deleteKb c st dS dI dL w).2.2,
      isServiceRolePolicyDelete e = false := by
  simp only [deleteKb]
  rcases hres : (deleteKbStage4 dI (deleteCloudwatchLogGroupM c
      (deleteKbStage2 c dS (deleteKbEntityBlock st w).1).1).1 st.roles).1
    with perr | u
  · dsimp only
    exact assembleOrdering4 st.kbId _ _ _ _
      (entityBlock_noAfter st w) (entityBlock_events st w)
      (stage2_benign c dS _) (all_imp_mem (cloudwatch_all_benign c _))
      (stage4_not_ds_kb dI _ st.roles) (stage4_no_service dI _ st.roles)
      (fun r => stage4_noAfter r dI _ st.roles)
  · dsimp only
    exact assembleOrdering6 st.kbId _ _ _ _ _ _
      (entityBlock_noAfter st w) (entityBlock_events st w)
      (stage2_benign c dS _) (all_imp_mem (cloudwatch_all_benign c _))
      (stage4_not_ds_kb dI _ st.roles) (stage4_no_service dI _ st.roles)
      (fun r => stage4_noAfter r dI _ st.roles)
      (stage5_benign c dL _) (all_imp_mem (vector_all_benign c st _))

/-- Instance state matching the resources of the first `cfg1` run. -/
def stX : KbState :=
  { dataSourceIds := [2], kbId := 1,
    roles := ["AmazonBedrockExecutionRoleForKnowledgeBase_sfx"],
    collectionId := 0, graphId := 0 }

theorem c5_teardown_tolerates_missing_witness :
    (deleteKb cfg1 stX true true true emptyWorld).1 = .ok () :=
  (c5_teardown_tolerates_missing cfg1 stX true true true).1

theorem c6_teardown_ordering_witness :
    isServiceRolePolicyDelete (ApiCall.deleteKnowledgeBase 1) = false :=
  (c6_teardown_ordering cfg1 stX false false false emptyWorld).2.2
    (ApiCall.deleteKnowledgeBase 1) (by decide)

end Raabta
